import Mathlib

/-!
Shallow embedding of the attendance/leave approval workflow of the
Attendance-management-system backend, taken from
`src/backend/app/routers/frontend_compat.py`.  Database sessions are modelled as
an explicit `Db` value holding the rows of each table; every route handler
becomes a pure function from the caller (already authenticated, as resolved by
`get_current_user`), its parameters and the current `Db` to either an
`HTTPException`-style error (status code plus detail string) or the new `Db`
(and, where a claim needs it, the response view).  `query(...).filter(...)
.first()` becomes `List.find?`; committing a mutation of the object returned by
`.first()` becomes replacement of the first matching list element
(`updateFirst`); `db.add` appends; `db.delete` removes the first match.
-/

namespace AMS

/-- `models.RoleEnum` (employee / manager / admin), as used by the role checks in
`frontend_compat.py`. -/
inductive Role where
  | employee
  | manager
  | admin
deriving DecidableEq, Repr

/-- Modelled from the spec: `app/models.py` is not among the sources.  The
`Employee` row carries the fields section 3 of the spec lists and that
`frontend_compat.py` reads: id, names, role, and the optional self-referential
manager reference. -/
structure Employee where
  id : Nat
  firstName : String
  lastName : String
  role : Role
  managerId : Option Nat
deriving DecidableEq, Repr

/-- Modelled from the spec: `app/models.py` is not among the sources.  One
`AttendanceRecord` per (employee, date); times are datetimes (modelled as `Nat`
instants), `status` and `approval_status` are nullable text columns, and the
confirmation columns come from the `add_attendance_confirmation` migration. -/
structure AttendanceRecord where
  id : Nat
  employeeId : Nat
  date : Int
  checkInTime : Option Nat
  checkOutTime : Option Nat
  status : Option String
  approvalStatus : Option String
  isConfirmed : Bool
  confirmedAt : Option Nat
deriving DecidableEq, Repr

/-- Modelled from the spec: `app/models.py` is not among the sources.  Child
rows of an `AttendanceRecord`, as read by `entries_count` queries and the entry
endpoints. -/
structure AttendanceEntry where
  id : Nat
  attendanceRecordId : Nat
  entryType : String
  timestamp : Nat
  reason : Option String
deriving DecidableEq, Repr

/-- `models.LeaveStatus` (pending / approved / rejected). -/
inductive LeaveStatus where
  | pending
  | approved
  | rejected
deriving DecidableEq, Repr

/-- Modelled from the spec: `app/models.py` is not among the sources.  Fields
per spec section 3 and the reads/writes in `frontend_compat.py`. -/
structure LeaveRequest where
  id : Nat
  employeeId : Nat
  leaveTypeId : Nat
  startDate : Int
  endDate : Int
  reason : Option String
  status : LeaveStatus
  appliedAt : Nat
  reviewedBy : Option Nat
  reviewedAt : Option Nat
deriving DecidableEq, Repr

/-- Modelled from the spec: `app/models.py` is not among the sources.  Keyed by
(employee, year); integer day counters as written by `approve_leave_post`. -/
structure LeaveBalance where
  employeeId : Nat
  year : Nat
  totalLeaves : Int
  usedLeaves : Int
  remainingLeaves : Int
deriving DecidableEq, Repr

/-- The relational store the routes run against: one list of rows per table. -/
structure Db where
  employees : List Employee
  attendance : List AttendanceRecord
  entries : List AttendanceEntry
  leaves : List LeaveRequest
  balances : List LeaveBalance
deriving DecidableEq, Repr

/-- An `HTTPException`: status code plus detail string. -/
abbrev Err := Nat × String

/-- Replace the first element satisfying `p` by its image under `f`: this is
committing a mutation of the single ORM object returned by
`query.filter(...).first()`. -/
def updateFirst (p : α → Bool) (f : α → α) : List α → List α
  | [] => []
  | x :: xs => if p x then f x :: xs else x :: updateFirst p f xs

/-- Drop the first element satisfying `p`: this is `db.delete(obj)` for the
object returned by `.first()`. -/
def removeFirst (p : α → Bool) : List α → List α
  | [] => []
  | x :: xs => if p x then xs else x :: removeFirst p xs

/-- `db.query(models.Employee).filter(models.Employee.id == eid).first()`. -/
def findEmployee (db : Db) (eid : Nat) : Option Employee :=
  db.employees.find? (fun e => e.id == eid)

/-- Python `s or default` on a nullable string column: both `None` and the empty
string fall back to the default. -/
def pyOr (s : Option String) (d : String) : String :=
  match s with
  | some s' => if s' = "" then d else s'
  | none => d

/-- Insert `a` in front of the first element `b` with `le a b`. -/
def insertSorted (le : α → α → Bool) (a : α) : List α → List α
  | [] => [a]
  | b :: bs => if le a b then a :: b :: bs else b :: insertSorted le a bs

/-- `ORDER BY` on a list of rows (insertion sort).  Only the comparison
function, not the particular stable order, matters to the claims: the result is
a permutation of the input (`perm_sortBy`). -/
def sortBy (le : α → α → Bool) : List α → List α
  | [] => []
  | a :: as => insertSorted le a (sortBy le as)

/-- `f"{emp.first_name} {emp.last_name}" if emp else "Unknown"` as computed by
the view-building loops. -/
def employeeName (db : Db) (eid : Nat) : String :=
  match findEmployee db eid with
  | some e => e.firstName ++ " " ++ e.lastName
  | none => "Unknown"

/-- `db.query(models.AttendanceEntry).filter(...record_id...).count()`. -/
def entriesCount (db : Db) (recId : Nat) : Nat :=
  (db.entries.filter (fun e => e.attendanceRecordId == recId)).length

/-- Request body of `POST /attendance/mark`.  `clockIn`/`clockOut` carry the
value `parse_clock_time` produces for the payload string; `clockOut = none`
models an absent (or empty, hence falsy) `clockOut` field. -/
structure MarkAttendanceRequest where
  employeeId : Nat
  clockIn : Nat
  clockOut : Option Nat
  status : String
deriving DecidableEq, Repr

/-- `mark_attendance` (`POST /attendance/mark`, frontend_compat.py lines
592-649).  Looks up the record for (`payload.employeeId`, today); if present,
sets `check_out_time` (when `clockOut` is given) and `status`; otherwise creates
the record with initial `approval_status` `Pending_Admin` when the owner's role
is manager and `Pending_Manager` otherwise.  Note the authenticated caller is
never consulted beyond authentication.  `freshId` is the id the store assigns to
a newly created row. -/
def mark_attendance (db : Db) (_user : Employee) (payload : MarkAttendanceRequest)
    (today : Int) (freshId : Nat) : Db :=
  match db.attendance.find? (fun r => r.employeeId == payload.employeeId && r.date == today) with
  | some r =>
      let r1 := match payload.clockOut with
        | some co => { r with checkOutTime := some co }
        | none => r
      let r2 := { r1 with status := some payload.status }
      let attendance' :=
        updateFirst (fun x => x.employeeId == payload.employeeId && x.date == today)
          (fun _ => r2) db.attendance
      { db with attendance := attendance' }
  | none =>
      let emp := findEmployee db payload.employeeId
      let initialApprovalStatus : String :=
        match emp with
        | some e => if e.role = Role.manager then "Pending_Admin" else "Pending_Manager"
        | none => "Pending_Manager"
      let newRec : AttendanceRecord :=
        { id := freshId
          employeeId := payload.employeeId
          date := today
          checkInTime := some payload.clockIn
          checkOutTime := payload.clockOut
          status := some payload.status
          approvalStatus := some initialApprovalStatus
          isConfirmed := false
          confirmedAt := none }
      { db with attendance := db.attendance ++ [newRec] }

/-- Request body of `PUT /attendance/{record_id}`.  `none` models an absent (or
empty, hence falsy) field; `clockOut` carries the parsed datetime. -/
structure UpdateAttendanceRequest where
  approvalStatus : Option String
  clockOut : Option Nat
  status : Option String
deriving DecidableEq, Repr

/-- The role-branched if/elif chain of `update_attendance` (frontend_compat.py
lines 680-702), factored out: given the caller, the record owner as looked up in
the directory, the payload and the record, it either rejects the call or yields
the record with the approval-status transition (if any) applied. -/
def updateAttendanceRoleStep (user : Employee) (employee : Option Employee)
    (payload : UpdateAttendanceRequest) (r : AttendanceRecord) :
    Except Err AttendanceRecord :=
  match user.role with
  | Role.employee =>
      if r.employeeId ≠ user.id then
        Except.error (403, "You can only update your own attendance")
      else if payload.approvalStatus.isSome then
        Except.error (403, "Employees cannot change approval status")
      else Except.ok r
  | Role.manager =>
      if r.employeeId == user.id then
        Except.ok r
      else if payload.approvalStatus.isSome then
        if employee.any (fun e => e.managerId != some user.id) then
          Except.error (403, "You can only verify attendance for your direct reports")
        else if r.approvalStatus != some "Pending_Manager" then
          Except.error (400, "This attendance record is not pending manager approval")
        else Except.ok { r with approvalStatus := some "Pending_Admin" }
      else Except.ok r
  | Role.admin =>
      if payload.approvalStatus.isSome then
        Except.ok { r with approvalStatus := some "Approved" }
      else Except.ok r

/-- The clock-out / free-text-status writes at the end of `update_attendance`
(frontend_compat.py lines 704-712), applied to whatever record the role step
produced. -/
def applyClockOutAndStatus (payload : UpdateAttendanceRequest)
    (r1 : AttendanceRecord) : AttendanceRecord :=
  let r2 := match payload.clockOut with
    | some co => { r1 with checkOutTime := some co }
    | none => r1
  match payload.status with
  | some s => { r2 with status := some s }
  | none => r2

/-- `update_attendance` (`PUT /attendance/{record_id}`, frontend_compat.py lines
658-729): the role-branched clock-out / manager-verify / admin-approve
endpoint. -/
def update_attendance (db : Db) (user : Employee) (recordId : Nat)
    (payload : UpdateAttendanceRequest) : Except Err Db :=
  match db.attendance.find? (fun r => r.id == recordId) with
  | none => Except.error (404, "Attendance record not found")
  | some r =>
    match updateAttendanceRoleStep user (findEmployee db r.employeeId) payload r with
    | Except.error e => Except.error e
    | Except.ok r1 =>
      let r3 := applyClockOutAndStatus payload r1
      let attendance' := updateFirst (fun x => x.id == recordId) (fun _ => r3) db.attendance
      Except.ok { db with attendance := attendance' }

/-- The row shape returned by `get_attendance_by_id` / `mark_attendance`. -/
structure AttendanceView where
  id : Nat
  employeeId : Nat
  employeeName : String
  date : Int
  clockIn : Option Nat
  clockOut : Option Nat
  status : String
  approvalStatus : String
deriving DecidableEq, Repr

/-- The response dict built for a single attendance record. -/
def attendanceView (db : Db) (r : AttendanceRecord) : AttendanceView :=
  { id := r.id
    employeeId := r.employeeId
    employeeName := employeeName db r.employeeId
    date := r.date
    clockIn := r.checkInTime
    clockOut := r.checkOutTime
    status := pyOr r.status "Present"
    approvalStatus := pyOr r.approvalStatus "Pending_Manager" }

/-- `get_attendance_by_id` (`GET /attendance/{record_id}`, frontend_compat.py
lines 540-566).  The caller is received but, beyond authentication, never
examined. -/
def get_attendance_by_id (db : Db) (_user : Employee) (recordId : Nat) :
    Except Err AttendanceView :=
  match db.attendance.find? (fun r => r.id == recordId) with
  | none => Except.error (404, "Attendance record not found")
  | some r => Except.ok (attendanceView db r)

/-- The row shape returned by `get_all_attendance`. -/
structure AttendanceListItem where
  id : Nat
  employeeId : Nat
  employeeName : String
  date : Int
  clockIn : Option Nat
  clockOut : Option Nat
  status : String
  approvalStatus : String
  entriesCount : Nat
  isConfirmed : Bool
  confirmedAt : Option Nat
deriving DecidableEq, Repr

/-- The response dict built per record in the `get_all_attendance` loop. -/
def attendanceListItem (db : Db) (r : AttendanceRecord) : AttendanceListItem :=
  { id := r.id
    employeeId := r.employeeId
    employeeName := employeeName db r.employeeId
    date := r.date
    clockIn := r.checkInTime
    clockOut := r.checkOutTime
    status := pyOr r.status "Present"
    approvalStatus := pyOr r.approvalStatus "Pending_Manager"
    entriesCount := entriesCount db r.id
    isConfirmed := r.isConfirmed
    confirmedAt := r.confirmedAt }

/-- The role-scoping filter of `get_all_attendance` (frontend_compat.py lines
441-453): employees are restricted to their own rows, managers to the rows of
their direct reports plus themselves, admins are unrestricted. -/
def attendanceScope (db : Db) (user : Employee) : List AttendanceRecord :=
  match user.role with
  | Role.employee => db.attendance.filter (fun r => r.employeeId == user.id)
  | Role.manager =>
      let subordinateIds :=
        ((db.employees.filter (fun e => e.managerId == some user.id)).map Employee.id)
          ++ [user.id]
      db.attendance.filter (fun r => subordinateIds.contains r.employeeId)
  | Role.admin => db.attendance

/-- `ORDER BY date DESC`. -/
def dateDesc (a b : AttendanceRecord) : Bool := decide (b.date ≤ a.date)

/-- `get_all_attendance` (`GET /attendance`, frontend_compat.py lines 433-483):
role-scoped query, ordered by date descending, paginated, mapped to the
frontend row shape. -/
def get_all_attendance (db : Db) (user : Employee) (skip limit : Nat) :
    List AttendanceListItem :=
  ((((sortBy dateDesc (attendanceScope db user)).drop skip).take limit).map
    (attendanceListItem db))

/-- Comparison for `ORDER BY` on a nullable time column (NULLs first). -/
def optNatLe : Option Nat → Option Nat → Bool
  | none, _ => true
  | some _, none => false
  | some a, some b => decide (a ≤ b)

/-- Ascending comparison for the sortable columns of `list_attendance`. -/
def colLe (field : String) (a b : AttendanceRecord) : Bool :=
  if field = "check_in_time" then optNatLe a.checkInTime b.checkInTime
  else if field = "check_out_time" then optNatLe a.checkOutTime b.checkOutTime
  else decide (a.date ≤ b.date)

/-- `list_attendance` (`GET /attendance/list`, frontend_compat.py lines
486-537).  Only employee-role callers are scoped to their own rows; other
callers get the whole table, optionally narrowed by the `employee_id` filter
(note Python truthiness: `employee_id = 0` is falsy and applies no filter).
Returns `(total, items)` with `total` counted before pagination. -/
def list_attendance (db : Db) (user : Employee) (skip limit : Nat)
    (employee_id : Option Nat) (start_date end_date : Option Int)
    (sort_by : Option String) (order : String) :
    Except Err (Nat × List AttendanceRecord) :=
  if ¬(order = "asc" ∨ order = "desc") then
    Except.error (400, "order must be asc or desc")
  else
    let q1 :=
      if user.role = Role.employee then
        db.attendance.filter (fun r => r.employeeId == user.id)
      else
        match employee_id with
        | some eid =>
            if eid ≠ 0 then db.attendance.filter (fun r => r.employeeId == eid)
            else db.attendance
        | none => db.attendance
    let q2 := match start_date with
      | some sd => q1.filter (fun r => decide (sd ≤ r.date))
      | none => q1
    let q3 := match end_date with
      | some ed => q2.filter (fun r => decide (r.date ≤ ed))
      | none => q2
    let sortedE : Except Err (List AttendanceRecord) :=
      match sort_by with
      | some f =>
          if f = "date" ∨ f = "check_in_time" ∨ f = "check_out_time" then
            if order = "asc" then Except.ok (sortBy (colLe f) q3)
            else Except.ok (sortBy (fun a b => colLe f b a) q3)
          else Except.error (400, "Invalid sort_by field")
      | none => Except.ok (sortBy dateDesc q3)
    match sortedE with
    | Except.error e => Except.error e
    | Except.ok sorted => Except.ok (q3.length, (sorted.drop skip).take limit)

/-- `confirm_attendance` (`POST /attendance/{record_id}/confirm`,
frontend_compat.py lines 871-915). -/
def confirm_attendance (db : Db) (user : Employee) (recordId : Nat) (now : Nat) :
    Except Err Db :=
  match db.attendance.find? (fun r => r.id == recordId) with
  | none => Except.error (404, "Attendance record not found")
  | some r =>
    if r.employeeId ≠ user.id ∧ user.role ≠ Role.admin then
      Except.error (403, "You can only confirm your own attendance")
    else if r.isConfirmed then
      Except.error (400, "Attendance already confirmed")
    else if entriesCount db r.id = 0 ∧ r.checkInTime = none then
      Except.error (400, "No attendance entries to confirm")
    else
      let r' := { r with isConfirmed := true
                         confirmedAt := some now
                         approvalStatus := some "Pending_Manager" }
      let attendance' := updateFirst (fun x => x.id == recordId) (fun _ => r') db.attendance
      Except.ok { db with attendance := attendance' }

/-- `status_map` applied to `lr.status.value.lower()` in the leave views. -/
def leaveStatusStr : LeaveStatus → String
  | LeaveStatus.pending => "Pending_Manager"
  | LeaveStatus.approved => "Approved"
  | LeaveStatus.rejected => "Rejected"

/-- The row shape returned by the leave listing endpoints. -/
structure LeaveView where
  id : Nat
  employeeId : Nat
  employeeName : String
  startDate : Int
  endDate : Int
  status : String
  reason : String
  appliedDate : Nat
  daysRequested : Int
deriving DecidableEq, Repr

/-- The response dict built per leave request in the listing loops. -/
def leaveView (db : Db) (lr : LeaveRequest) : LeaveView :=
  { id := lr.id
    employeeId := lr.employeeId
    employeeName := employeeName db lr.employeeId
    startDate := lr.startDate
    endDate := lr.endDate
    status := leaveStatusStr lr.status
    reason := lr.reason.getD ""
    appliedDate := lr.appliedAt
    daysRequested := lr.endDate - lr.startDate + 1 }

/-- The role-scoping filter shared (up to branch order) by `get_all_leaves`
(frontend_compat.py lines 922-951, if admin / elif manager / else) and
`get_leave_list` (lines 982-1007, if employee / elif manager / else): admins
unrestricted, managers restricted to direct reports plus themselves, employees
to their own rows. -/
def leaveScope (db : Db) (user : Employee) : List LeaveRequest :=
  match user.role with
  | Role.admin => db.leaves
  | Role.manager =>
      let subordinateIds :=
        ((db.employees.filter (fun e => e.managerId == some user.id)).map Employee.id)
          ++ [user.id]
      db.leaves.filter (fun lr => subordinateIds.contains lr.employeeId)
  | Role.employee => db.leaves.filter (fun lr => lr.employeeId == user.id)

/-- `ORDER BY applied_at DESC`. -/
def appliedDesc (a b : LeaveRequest) : Bool := decide (b.appliedAt ≤ a.appliedAt)

/-- `ORDER BY id DESC`. -/
def idDesc (a b : LeaveRequest) : Bool := decide (b.id ≤ a.id)

/-- `get_all_leaves` (`GET /leave`, frontend_compat.py lines 922-979). -/
def get_all_leaves (db : Db) (user : Employee) : List LeaveView :=
  (sortBy appliedDesc (leaveScope db user)).map (leaveView db)

/-- `get_leave_list` (`GET /leave/list`, frontend_compat.py lines 982-1036). -/
def get_leave_list (db : Db) (user : Employee) : List LeaveView :=
  (sortBy idDesc (leaveScope db user)).map (leaveView db)

/-- `delete_leave` (`DELETE /leave/{leave_id}`, frontend_compat.py lines
1177-1199).  The ownership guard only fires for employee-role callers. -/
def delete_leave (db : Db) (user : Employee) (leaveId : Nat) : Except Err Db :=
  match db.leaves.find? (fun lr => lr.id == leaveId) with
  | none => Except.error (404, "Leave request not found")
  | some lr =>
    if lr.employeeId ≠ user.id ∧ user.role = Role.employee then
      Except.error (403, "Cannot delete others leave requests")
    else if lr.status ≠ LeaveStatus.pending then
      Except.error (400, "Can only delete pending leave requests")
    else
      Except.ok { db with leaves := removeFirst (fun x => x.id == leaveId) db.leaves }

/-- `approve_leave_post` (`POST /leave/{leave_id}/approve`, frontend_compat.py
lines 1202-1272): role gate, pending guard, direct-report check for managers,
then the leave-balance upsert and the status transition.  `currentYear` is
`date.today().year`, `now` the review timestamp. -/
def approve_leave_post (db : Db) (user : Employee) (leaveId : Nat)
    (currentYear : Nat) (now : Nat) : Except Err Db :=
  if user.role ≠ Role.admin ∧ user.role ≠ Role.manager then
    Except.error (403, "Only admin/manager can approve")
  else
    match db.leaves.find? (fun lr => lr.id == leaveId) with
    | none => Except.error (404, "Leave request not found")
    | some lr =>
      if lr.status ≠ LeaveStatus.pending then
        Except.error (400, "Leave request not pending")
      else
        let managerCheck : Except Err Unit :=
          if user.role = Role.manager then
            match findEmployee db lr.employeeId with
            | none => Except.error (404, "Employee not found")
            | some employee =>
              if employee.managerId ≠ some user.id then
                Except.error (403, "You can only approve leaves for your direct reports")
              else Except.ok ()
          else Except.ok ()
        match managerCheck with
        | Except.error e => Except.error e
        | Except.ok _ =>
          let daysRequested : Int := lr.endDate - lr.startDate + 1
          let balances' :=
            match db.balances.find?
                (fun b => b.employeeId == lr.employeeId && b.year == currentYear) with
            | some _ =>
                updateFirst
                  (fun b => b.employeeId == lr.employeeId && b.year == currentYear)
                  (fun b =>
                    let used := b.usedLeaves + daysRequested
                    { b with usedLeaves := used
                             remainingLeaves := b.totalLeaves - used })
                  db.balances
            | none =>
                db.balances ++
                  [{ employeeId := lr.employeeId
                     year := currentYear
                     totalLeaves := 17
                     usedLeaves := daysRequested
                     remainingLeaves := 17 - daysRequested }]
          let lr' := { lr with status := LeaveStatus.approved
                               reviewedBy := some user.id
                               reviewedAt := some now }
          Except.ok { db with
            leaves := updateFirst (fun x => x.id == leaveId) (fun _ => lr') db.leaves
            balances := balances' }

/-- `reject_leave_post` (`POST /leave/{leave_id}/reject`, frontend_compat.py
lines 1275-1309): role gate and direct-report check for managers, then the
transition to rejected.  No pending guard and no balance write. -/
def reject_leave_post (db : Db) (user : Employee) (leaveId : Nat) (now : Nat) :
    Except Err Db :=
  if user.role ≠ Role.admin ∧ user.role ≠ Role.manager then
    Except.error (403, "Only admin/manager can reject")
  else
    match db.leaves.find? (fun lr => lr.id == leaveId) with
    | none => Except.error (404, "Leave request not found")
    | some lr =>
      let proceed : Except Err Unit :=
        if user.role = Role.manager then
          if (findEmployee db lr.employeeId).any (fun e => e.managerId != some user.id) then
            Except.error (403, "You can only reject leaves for your direct reports")
          else Except.ok ()
        else Except.ok ()
      match proceed with
      | Except.error e => Except.error e
      | Except.ok _ =>
        let lr' := { lr with status := LeaveStatus.rejected
                             reviewedBy := some user.id
                             reviewedAt := some now }
        Except.ok { db with
          leaves := updateFirst (fun x => x.id == leaveId) (fun _ => lr') db.leaves }

/-- The listing visibility rule in the spec's own words (spec sections 4.1 and
8): an employee sees only rows they own, a manager sees exactly the rows of
self plus direct reports (one level), an admin sees all.  Used to compare the
router's query scoping against the spec. -/
def specVisible (db : Db) (caller : Employee) (rowOwner : Nat) : Prop :=
  match caller.role with
  | Role.employee => rowOwner = caller.id
  | Role.manager =>
      rowOwner = caller.id ∨
        ∃ e ∈ db.employees, e.id = rowOwner ∧ e.managerId = some caller.id
  | Role.admin => True

instance (db : Db) (caller : Employee) (rowOwner : Nat) :
    Decidable (specVisible db caller rowOwner) := by
  unfold specVisible
  cases caller.role <;> infer_instance

/-! Concrete store used to instantiate witnesses and counterexamples: Alice
(employee 1) reports to manager Bob (2); Dan (employee 4) reports to manager
Eve (5); Carol (3) is an admin.  Attendance: one row each for Alice, Dan and
Bob on day 100; one entry on Alice's row.  Two pending leave requests (Alice,
Dan) and a leave balance row for Alice in year 2026. -/

/-- Example employee: Alice, employee role, direct report of Bob. -/
def empAlice : Employee :=
  { id := 1, firstName := "Alice", lastName := "A", role := Role.employee, managerId := some 2 }

/-- Example employee: Bob, manager role. -/
def mgrBob : Employee :=
  { id := 2, firstName := "Bob", lastName := "B", role := Role.manager, managerId := none }

/-- Example employee: Carol, admin role. -/
def admCarol : Employee :=
  { id := 3, firstName := "Carol", lastName := "C", role := Role.admin, managerId := none }

/-- Example employee: Dan, employee role, direct report of Eve. -/
def empDan : Employee :=
  { id := 4, firstName := "Dan", lastName := "D", role := Role.employee, managerId := some 5 }

/-- Example employee: Eve, manager role. -/
def mgrEve : Employee :=
  { id := 5, firstName := "Eve", lastName := "E", role := Role.manager, managerId := none }

/-- Alice's attendance row for day 100, unconfirmed, pending manager review. -/
def recAlice : AttendanceRecord :=
  { id := 10, employeeId := 1, date := 100, checkInTime := some 540, checkOutTime := none,
    status := some "Present", approvalStatus := some "Pending_Manager",
    isConfirmed := false, confirmedAt := none }

/-- Dan's attendance row for day 100. -/
def recDan : AttendanceRecord :=
  { id := 11, employeeId := 4, date := 100, checkInTime := some 540, checkOutTime := none,
    status := some "Present", approvalStatus := some "Pending_Manager",
    isConfirmed := false, confirmedAt := none }

/-- Bob's (a manager's) own attendance row for day 100. -/
def recBob : AttendanceRecord :=
  { id := 12, employeeId := 2, date := 100, checkInTime := some 500, checkOutTime := none,
    status := some "Present", approvalStatus := some "Pending_Admin",
    isConfirmed := false, confirmedAt := none }

/-- A check-in entry on Alice's attendance row. -/
def entAlice : AttendanceEntry :=
  { id := 20, attendanceRecordId := 10, entryType := "in", timestamp := 540, reason := none }

/-- Alice's pending leave request, 3 inclusive days. -/
def lvAlice : LeaveRequest :=
  { id := 30, employeeId := 1, leaveTypeId := 1, startDate := 200, endDate := 202,
    reason := some "trip", status := LeaveStatus.pending, appliedAt := 50,
    reviewedBy := none, reviewedAt := none }

/-- Dan's pending leave request, a single day. -/
def lvDan : LeaveRequest :=
  { id := 31, employeeId := 4, leaveTypeId := 1, startDate := 300, endDate := 300,
    reason := none, status := LeaveStatus.pending, appliedAt := 60,
    reviewedBy := none, reviewedAt := none }

/-- Alice's 2026 leave balance: 2 of 17 days used. -/
def balAlice : LeaveBalance :=
  { employeeId := 1, year := 2026, totalLeaves := 17, usedLeaves := 2, remainingLeaves := 15 }

/-- The example store. -/
def dbMain : Db :=
  { employees := [empAlice, mgrBob, admCarol, empDan, mgrEve]
    attendance := [recAlice, recDan, recBob]
    entries := [entAlice]
    leaves := [lvAlice, lvDan]
    balances := [balAlice] }

/-! General lemmas about the list combinators that model the ORM operations. -/

theorem perm_insertSorted (le : α → α → Bool) (a : α) (l : List α) :
    (insertSorted le a l).Perm (a :: l) := by
  induction l with
  | nil => exact List.Perm.refl _
  | cons b bs ih =>
    unfold insertSorted
    cases h : le a b with
    | true => simp
    | false =>
      simp only [Bool.false_eq_true, if_false]
      exact (ih.cons b).trans (List.Perm.swap a b bs)

theorem perm_sortBy (le : α → α → Bool) (l : List α) : (sortBy le l).Perm l := by
  induction l with
  | nil => exact List.Perm.refl _
  | cons a as ih =>
    exact (perm_insertSorted le a (sortBy le as)).trans (ih.cons a)

theorem mem_sortBy (le : α → α → Bool) (l : List α) (a : α) :
    a ∈ sortBy le l ↔ a ∈ l :=
  (perm_sortBy le l).mem_iff

theorem length_sortBy (le : α → α → Bool) (l : List α) :
    (sortBy le l).length = l.length :=
  (perm_sortBy le l).length_eq

theorem find?_updateFirst (p : α → Bool) (f : α → α) (l : List α) (a : α)
    (h : l.find? p = some a) (hf : p (f a) = true) :
    (updateFirst p f l).find? p = some (f a) := by
  induction l with
  | nil => simp [List.find?] at h
  | cons x xs ih =>
    cases hx : p x with
    | true =>
      rw [List.find?_cons_of_pos _ hx] at h
      injection h with h
      subst h
      unfold updateFirst
      simp only [hx, if_true]
      exact List.find?_cons_of_pos _ hf
    | false =>
      rw [List.find?_cons_of_neg _ (by simp [hx])] at h
      unfold updateFirst
      simp only [hx, Bool.false_eq_true, if_false]
      rw [List.find?_cons_of_neg _ (by simp [hx])]
      exact ih h

theorem map_updateFirst (p : α → Bool) (f : α → α) (g : α → β) (l : List α) (a : α)
    (h : l.find? p = some a) (hg : g (f a) = g a) :
    (updateFirst p f l).map g = l.map g := by
  induction l with
  | nil => rfl
  | cons x xs ih =>
    cases hx : p x with
    | true =>
      rw [List.find?_cons_of_pos _ hx] at h
      injection h with h
      subst h
      unfold updateFirst
      simp [hx, hg]
    | false =>
      rw [List.find?_cons_of_neg _ (by simp [hx])] at h
      unfold updateFirst
      simp only [hx, Bool.false_eq_true, if_false, List.map_cons]
      rw [ih h]

theorem mem_map_sortBy (le : α → α → Bool) (f : α → β) (scope : List α) (r : α)
    (hinj : ∀ b ∈ scope, f b = f r → b = r) :
    f r ∈ (sortBy le scope).map f ↔ r ∈ scope := by
  constructor
  · intro h
    rcases List.mem_map.1 h with ⟨b, hb, hfb⟩
    have hbs := (mem_sortBy le scope b).1 hb
    have hbr := hinj b hbs hfb
    exact hbr ▸ hbs
  · intro h
    exact List.mem_map.2 ⟨r, (mem_sortBy le scope r).2 h, rfl⟩

theorem mem_subordinateIds (db : Db) (uid : Nat) (x : Nat) :
    x ∈ (((db.employees.filter (fun e => e.managerId == some uid)).map Employee.id) ++ [uid]) ↔
      (x = uid ∨ ∃ e ∈ db.employees, e.id = x ∧ e.managerId = some uid) := by
  simp only [List.mem_append, List.mem_map, List.mem_filter, List.mem_singleton, beq_iff_eq]
  constructor
  · rintro (⟨e, ⟨he, hm⟩, hid⟩ | h)
    · exact Or.inr ⟨e, he, hid, hm⟩
    · exact Or.inl h
  · rintro (h | ⟨e, he, hid, hm⟩)
    · exact Or.inr h
    · exact Or.inl ⟨e, ⟨he, hm⟩, hid⟩

theorem mem_attendanceScope (db : Db) (u : Employee) (r : AttendanceRecord) :
    r ∈ attendanceScope db u ↔ r ∈ db.attendance ∧ specVisible db u r.employeeId := by
  unfold attendanceScope specVisible
  cases u.role with
  | employee => simp [List.mem_filter, beq_iff_eq]
  | admin => simp
  | manager =>
    simp only [List.mem_filter]
    constructor
    · rintro ⟨hmem, hc⟩
      refine ⟨hmem, ?_⟩
      have hc' : r.employeeId ∈
          (((db.employees.filter (fun e => e.managerId == some u.id)).map Employee.id)
            ++ [u.id]) := by simpa using hc
      exact (mem_subordinateIds db u.id r.employeeId).1 hc'
    · rintro ⟨hmem, hv⟩
      refine ⟨hmem, ?_⟩
      have hc' := (mem_subordinateIds db u.id r.employeeId).2 hv
      simpa using hc'

theorem mem_leaveScope (db : Db) (u : Employee) (lr : LeaveRequest) :
    lr ∈ leaveScope db u ↔ lr ∈ db.leaves ∧ specVisible db u lr.employeeId := by
  unfold leaveScope specVisible
  cases u.role with
  | employee => simp [List.mem_filter, beq_iff_eq]
  | admin => simp
  | manager =>
    simp only [List.mem_filter]
    constructor
    · rintro ⟨hmem, hc⟩
      refine ⟨hmem, ?_⟩
      have hc' : lr.employeeId ∈
          (((db.employees.filter (fun e => e.managerId == some u.id)).map Employee.id)
            ++ [u.id]) := by simpa using hc
      exact (mem_subordinateIds db u.id lr.employeeId).1 hc'
    · rintro ⟨hmem, hv⟩
      refine ⟨hmem, ?_⟩
      have hc' := (mem_subordinateIds db u.id lr.employeeId).2 hv
      simpa using hc'

theorem length_attendanceScope_le (db : Db) (u : Employee) :
    (attendanceScope db u).length ≤ db.attendance.length := by
  unfold attendanceScope
  cases u.role with
  | employee => exact List.length_filter_le _ _
  | manager => exact List.length_filter_le _ _
  | admin => exact Nat.le_refl _

theorem get_all_attendance_full (db : Db) (u : Employee) :
    get_all_attendance db u 0 db.attendance.length =
      (sortBy dateDesc (attendanceScope db u)).map (attendanceListItem db) := by
  unfold get_all_attendance
  rw [List.drop_zero, List.take_of_length_le]
  rw [length_sortBy]
  exact length_attendanceScope_le db u

theorem applyClockOutAndStatus_id (payload : UpdateAttendanceRequest)
    (r1 : AttendanceRecord) : (applyClockOutAndStatus payload r1).id = r1.id := by
  unfold applyClockOutAndStatus
  cases payload.clockOut <;> cases payload.status <;> rfl

theorem applyClockOutAndStatus_employeeId (payload : UpdateAttendanceRequest)
    (r1 : AttendanceRecord) :
    (applyClockOutAndStatus payload r1).employeeId = r1.employeeId := by
  unfold applyClockOutAndStatus
  cases payload.clockOut <;> cases payload.status <;> rfl

theorem applyClockOutAndStatus_approvalStatus (payload : UpdateAttendanceRequest)
    (r1 : AttendanceRecord) :
    (applyClockOutAndStatus payload r1).approvalStatus = r1.approvalStatus := by
  unfold applyClockOutAndStatus
  cases payload.clockOut <;> cases payload.status <;> rfl

theorem applyClockOutAndStatus_checkOutTime (payload : UpdateAttendanceRequest)
    (r1 : AttendanceRecord) :
    (applyClockOutAndStatus payload r1).checkOutTime =
      (match payload.clockOut with | some co => some co | none => r1.checkOutTime) := by
  unfold applyClockOutAndStatus
  cases payload.clockOut <;> cases payload.status <;> rfl

theorem applyClockOutAndStatus_status (payload : UpdateAttendanceRequest)
    (r1 : AttendanceRecord) :
    (applyClockOutAndStatus payload r1).status =
      (match payload.status with | some s => some s | none => r1.status) := by
  unfold applyClockOutAndStatus
  cases payload.clockOut <;> cases payload.status <;> rfl

/-! Claim theorems. -/

/-- C9: fetching a single attendance record by id performs no role or ownership
check: for every authenticated caller (regardless of role, ownership or
reporting line) and every existing record id, `get_attendance_by_id` returns the
record's view and never fails Forbidden; the visibility scoping exists only in
the listing operations. -/
theorem C9_get_by_id_no_check (db : Db) (user : Employee) (recordId : Nat)
    (r : AttendanceRecord)
    (hfind : db.attendance.find? (fun x => x.id == recordId) = some r) :
    get_attendance_by_id db user recordId = Except.ok (attendanceView db r) := by
  unfold get_attendance_by_id
  rw [hfind]

/-- C9 witness: Dan, who is neither the owner of Alice's record nor anywhere in
her reporting line, fetches it by id successfully. -/
theorem C9_witness :
    get_attendance_by_id dbMain empDan 10 = Except.ok (attendanceView dbMain recAlice) :=
  C9_get_by_id_no_check dbMain empDan 10 recAlice (by rfl)

/-- C8: when `mark_attendance` creates a new attendance record (no record exists
for that employee and day), its initial approval_status is Pending_Admin if the
record owner's role is manager, and Pending_Manager for every other role. -/
theorem C8_initial_approval_status (db : Db) (u : Employee)
    (payload : MarkAttendanceRequest) (today : Int) (freshId : Nat) (emp : Employee)
    (hnone : db.attendance.find?
      (fun r => r.employeeId == payload.employeeId && r.date == today) = none)
    (hemp : findEmployee db payload.employeeId = some emp) :
    (mark_attendance db u payload today freshId).attendance =
      db.attendance ++
        [{ id := freshId
           employeeId := payload.employeeId
           date := today
           checkInTime := some payload.clockIn
           checkOutTime := payload.clockOut
           status := some payload.status
           approvalStatus :=
             some (if emp.role = Role.manager then "Pending_Admin" else "Pending_Manager")
           isConfirmed := false
           confirmedAt := none }] := by
  unfold mark_attendance
  rw [hnone]
  simp [hemp]

/-- C8 witness: marking attendance for Eve (a manager) on a day with no record
creates a row whose initial approval status follows her manager role
(Pending_Admin). -/
theorem C8_witness :
    (mark_attendance dbMain empDan ⟨5, 480, none, "Present"⟩ 100 99).attendance =
      dbMain.attendance ++
        [{ id := 99
           employeeId := 5
           date := 100
           checkInTime := some 480
           checkOutTime := none
           status := some "Present"
           approvalStatus :=
             some (if mgrEve.role = Role.manager then "Pending_Admin" else "Pending_Manager")
           isConfirmed := false
           confirmedAt := none }] :=
  C8_initial_approval_status dbMain empDan ⟨5, 480, none, "Present"⟩ 100 99 mgrEve
    (by rfl) (by rfl)

/-- C4: `confirm` on an existing attendance record succeeds iff the caller is
the record owner or an admin, the record is not yet confirmed, and it has at
least one entry or a check-in time set; on success is_confirmed becomes true,
confirmed_at the current time and approval_status Pending_Manager; a second
confirm on the already-confirmed record fails with the already-confirmed
Conflict (HTTP 400 in the source; the "already confirmed" case the spec's error
taxonomy classes as Conflict) and, being a failure, returns no new state, so the
record stays unchanged. -/
theorem C4_confirm (db : Db) (user : Employee) (recordId : Nat) (now : Nat)
    (r : AttendanceRecord)
    (hfind : db.attendance.find? (fun x => x.id == recordId) = some r) :
    ((∃ db', confirm_attendance db user recordId now = Except.ok db') ↔
      ((r.employeeId = user.id ∨ user.role = Role.admin) ∧ r.isConfirmed = false ∧
        (entriesCount db r.id ≠ 0 ∨ r.checkInTime ≠ none))) ∧
    (∀ db', confirm_attendance db user recordId now = Except.ok db' →
      db'.attendance.find? (fun x => x.id == recordId) =
        some { r with isConfirmed := true
                      confirmedAt := some now
                      approvalStatus := some "Pending_Manager" }) ∧
    (∀ db' now2, confirm_attendance db user recordId now = Except.ok db' →
      confirm_attendance db' user recordId now2 =
        Except.error (400, "Attendance already confirmed")) := by
  have hpr : (fun x : AttendanceRecord => x.id == recordId) r = true := by
    have h := List.find?_some hfind
    simpa using h
  unfold confirm_attendance
  simp only [hfind]
  by_cases h1 : (r.employeeId ≠ user.id ∧ user.role ≠ Role.admin)
  · rw [if_pos h1]
    refine ⟨?_, ?_, ?_⟩
    · constructor
      · rintro ⟨db', hdb⟩
        exact Except.noConfusion hdb
      · rintro ⟨hor, -, -⟩
        rcases hor with h | h
        · exact absurd h h1.1
        · exact absurd h h1.2
    · intro db' hdb
      exact Except.noConfusion hdb
    · intro db' now2 hdb
      exact Except.noConfusion hdb
  · rw [if_neg h1]
    have hauth : r.employeeId = user.id ∨ user.role = Role.admin := by
      rcases not_and_or.1 h1 with h | h
      · exact Or.inl (not_not.1 h)
      · exact Or.inr (not_not.1 h)
    cases hc : r.isConfirmed with
    | true =>
      rw [if_pos rfl]
      refine ⟨?_, ?_, ?_⟩
      · constructor
        · rintro ⟨db', hdb⟩
          exact Except.noConfusion hdb
        · rintro ⟨-, hfc, -⟩
          exact Bool.noConfusion hfc
      · intro db' hdb
        exact Except.noConfusion hdb
      · intro db' now2 hdb
        exact Except.noConfusion hdb
    | false =>
      rw [if_neg Bool.false_ne_true]
      by_cases h3 : (entriesCount db r.id = 0 ∧ r.checkInTime = none)
      · rw [if_pos h3]
        refine ⟨?_, ?_, ?_⟩
        · constructor
          · rintro ⟨db', hdb⟩
            exact Except.noConfusion hdb
          · rintro ⟨-, -, hor⟩
            rcases hor with h | h
            · exact absurd h3.1 h
            · exact absurd h3.2 h
        · intro db' hdb
          exact Except.noConfusion hdb
        · intro db' now2 hdb
          exact Except.noConfusion hdb
      · rw [if_neg h3]
        refine ⟨?_, ?_, ?_⟩
        · constructor
          · intro _
            refine ⟨hauth, rfl, ?_⟩
            rcases not_and_or.1 h3 with h | h
            · exact Or.inl h
            · exact Or.inr h
          · intro _
            exact ⟨_, rfl⟩
        · intro db' hdb
          injection hdb with hdb
          subst hdb
          exact find?_updateFirst _ _ _ _ hfind hpr
        · intro db' now2 hdb
          injection hdb with hdb
          subst hdb
          have hfind' := find?_updateFirst (fun x => x.id == recordId)
            (fun _ => { r with isConfirmed := true
                               confirmedAt := some now
                               approvalStatus := some "Pending_Manager" })
            db.attendance r hfind hpr
          simp only [hfind']
          rw [if_neg (by
            intro hcon
            rcases hauth with h | h
            · exact hcon.1 h
            · exact hcon.2 h)]
          rfl

/-- C4 witness: Alice confirms her own unconfirmed record (which has an entry);
the call succeeds, stores the confirmation fields, and a second confirm fails
with the already-confirmed Conflict. -/
theorem C4_witness :
    ((∃ db', confirm_attendance dbMain empAlice 10 600 = Except.ok db') ↔
      ((recAlice.employeeId = empAlice.id ∨ empAlice.role = Role.admin) ∧
        recAlice.isConfirmed = false ∧
        (entriesCount dbMain recAlice.id ≠ 0 ∨ recAlice.checkInTime ≠ none))) ∧
    (∀ db', confirm_attendance dbMain empAlice 10 600 = Except.ok db' →
      db'.attendance.find? (fun x => x.id == 10) =
        some { recAlice with isConfirmed := true
                             confirmedAt := some 600
                             approvalStatus := some "Pending_Manager" }) ∧
    (∀ db' now2, confirm_attendance dbMain empAlice 10 600 = Except.ok db' →
      confirm_attendance db' empAlice 10 now2 =
        Except.error (400, "Attendance already confirmed")) :=
  C4_confirm dbMain empAlice 10 600 recAlice (by rfl)

/-- C5: manager verification through `update_attendance` (a manager caller, a
record they do not own, an approvalStatus value in the payload, the record
owner present in the directory): it succeeds iff the caller is the owner's
direct manager and the record is in Pending_Manager, in which case the stored
record moves to Pending_Admin; a caller who is not the owner's direct manager
gets Forbidden, and a direct manager on a record not in Pending_Manager gets
the not-pending-manager Conflict (HTTP 400 in the source).  Failures return no
new state, so nothing changes. -/
theorem C5_manager_verify (db : Db) (user : Employee) (recordId : Nat)
    (payload : UpdateAttendanceRequest) (r : AttendanceRecord) (owner : Employee)
    (hrole : user.role = Role.manager)
    (hfind : db.attendance.find? (fun x => x.id == recordId) = some r)
    (hnotown : r.employeeId ≠ user.id)
    (howner : findEmployee db r.employeeId = some owner)
    (happ : payload.approvalStatus.isSome = true) :
    ((∃ db', update_attendance db user recordId payload = Except.ok db') ↔
      (owner.managerId = some user.id ∧ r.approvalStatus = some "Pending_Manager")) ∧
    (∀ db', update_attendance db user recordId payload = Except.ok db' →
      ∃ r', db'.attendance.find? (fun x => x.id == recordId) = some r' ∧
        r'.approvalStatus = some "Pending_Admin") ∧
    (owner.managerId ≠ some user.id →
      update_attendance db user recordId payload =
        Except.error (403, "You can only verify attendance for your direct reports")) ∧
    (owner.managerId = some user.id → r.approvalStatus ≠ some "Pending_Manager" →
      update_attendance db user recordId payload =
        Except.error (400, "This attendance record is not pending manager approval")) := by
  have hpr : (fun x : AttendanceRecord => x.id == recordId) r = true := by
    have h := List.find?_some hfind
    simpa using h
  have hne : (r.employeeId == user.id) = false := by
    simpa using hnotown
  unfold update_attendance
  simp only [hfind, howner]
  unfold updateAttendanceRoleStep
  simp only [hrole]
  rw [hne, if_neg Bool.false_ne_true, happ, if_pos rfl]
  simp only [Option.any_some]
  by_cases hm : owner.managerId = some user.id
  · rw [if_neg (by simp [hm] : ¬((owner.managerId != some user.id) = true))]
    by_cases hst : r.approvalStatus = some "Pending_Manager"
    · rw [if_neg (by simp [hst] : ¬((r.approvalStatus != some "Pending_Manager") = true))]
      have hfr : ((applyClockOutAndStatus payload
          { r with approvalStatus := some "Pending_Admin" }).id == recordId) = true := by
        rw [applyClockOutAndStatus_id]
        exact hpr
      refine ⟨?_, ?_, ?_, ?_⟩
      · exact ⟨fun _ => ⟨hm, hst⟩, fun _ => ⟨_, rfl⟩⟩
      · intro db' hdb
        injection hdb with hdb
        subst hdb
        refine ⟨applyClockOutAndStatus payload
          { r with approvalStatus := some "Pending_Admin" }, ?_, ?_⟩
        · exact find?_updateFirst _ _ _ _ hfind hfr
        · rw [applyClockOutAndStatus_approvalStatus]
      · intro hmne
        exact absurd hm hmne
      · intro _ hstne
        exact absurd hst hstne
    · rw [if_pos (by simpa using hst : (r.approvalStatus != some "Pending_Manager") = true)]
      refine ⟨?_, ?_, ?_, ?_⟩
      · constructor
        · rintro ⟨db', hdb⟩
          exact Except.noConfusion hdb
        · rintro ⟨-, h⟩
          exact absurd h hst
      · intro db' hdb
        exact Except.noConfusion hdb
      · intro hmne
        exact absurd hm hmne
      · intro _ _
        rfl
  · rw [if_pos (by simpa using hm : (owner.managerId != some user.id) = true)]
    refine ⟨?_, ?_, ?_, ?_⟩
    · constructor
      · rintro ⟨db', hdb⟩
        exact Except.noConfusion hdb
      · rintro ⟨h, -⟩
        exact absurd h hm
    · intro db' hdb
      exact Except.noConfusion hdb
    · intro _
      rfl
    · intro h _
      exact absurd h hm

/-- C5 witness: Bob, Alice's direct manager, verifies Alice's Pending_Manager
record via `update_attendance` with an approvalStatus payload. -/
theorem C5_witness :
    ((∃ db', update_attendance dbMain mgrBob 10 ⟨some "Pending_Admin", none, none⟩ =
        Except.ok db') ↔
      (empAlice.managerId = some mgrBob.id ∧
        recAlice.approvalStatus = some "Pending_Manager")) ∧
    (∀ db', update_attendance dbMain mgrBob 10 ⟨some "Pending_Admin", none, none⟩ =
        Except.ok db' →
      ∃ r', db'.attendance.find? (fun x => x.id == 10) = some r' ∧
        r'.approvalStatus = some "Pending_Admin") ∧
    (empAlice.managerId ≠ some mgrBob.id →
      update_attendance dbMain mgrBob 10 ⟨some "Pending_Admin", none, none⟩ =
        Except.error (403, "You can only verify attendance for your direct reports")) ∧
    (empAlice.managerId = some mgrBob.id →
      recAlice.approvalStatus ≠ some "Pending_Manager" →
      update_attendance dbMain mgrBob 10 ⟨some "Pending_Admin", none, none⟩ =
        Except.error (400, "This attendance record is not pending manager approval")) :=
  C5_manager_verify dbMain mgrBob 10 ⟨some "Pending_Admin", none, none⟩ recAlice empAlice
    (by rfl) (by rfl) (by decide) (by rfl) (by rfl)

/-- C10: a manager calling `update_attendance` on their own attendance record
with an approvalStatus value in the payload succeeds, yet the stored record's
approval_status is unchanged (silent no-op, no Forbidden/Conflict raised);
only the clockOut and status fields of the payload take effect. -/
theorem C10_manager_own_record (db : Db) (user : Employee) (recordId : Nat)
    (payload : UpdateAttendanceRequest) (r : AttendanceRecord)
    (hrole : user.role = Role.manager)
    (hfind : db.attendance.find? (fun x => x.id == recordId) = some r)
    (hown : r.employeeId = user.id)
    (happ : payload.approvalStatus.isSome = true) :
    ∃ db', update_attendance db user recordId payload = Except.ok db' ∧
      db'.attendance.find? (fun x => x.id == recordId) =
        some (applyClockOutAndStatus payload r) ∧
      (applyClockOutAndStatus payload r).approvalStatus = r.approvalStatus ∧
      (applyClockOutAndStatus payload r).checkOutTime =
        (match payload.clockOut with | some co => some co | none => r.checkOutTime) ∧
      (applyClockOutAndStatus payload r).status =
        (match payload.status with | some s => some s | none => r.status) := by
  have hpr : (fun x : AttendanceRecord => x.id == recordId) r = true := by
    have h := List.find?_some hfind
    simpa using h
  have heq : (r.employeeId == user.id) = true := by
    simpa using hown
  have hfr : ((applyClockOutAndStatus payload r).id == recordId) = true := by
    rw [applyClockOutAndStatus_id]
    exact hpr
  unfold update_attendance
  simp only [hfind]
  unfold updateAttendanceRoleStep
  simp only [hrole]
  rw [heq, if_pos rfl]
  exact ⟨_, rfl, find?_updateFirst _ _ _ _ hfind hfr,
    applyClockOutAndStatus_approvalStatus payload r,
    applyClockOutAndStatus_checkOutTime payload r,
    applyClockOutAndStatus_status payload r⟩

/-- C10 witness: Bob updates his own record with an approvalStatus value plus a
clock-out; the call succeeds, approval_status stays Pending_Admin, and the
clock-out is applied. -/
theorem C10_witness :
    ∃ db', update_attendance dbMain mgrBob 12 ⟨some "Approved", some 1000, none⟩ =
        Except.ok db' ∧
      db'.attendance.find? (fun x => x.id == 12) =
        some (applyClockOutAndStatus ⟨some "Approved", some 1000, none⟩ recBob) ∧
      (applyClockOutAndStatus ⟨some "Approved", some 1000, none⟩ recBob).approvalStatus =
        recBob.approvalStatus ∧
      (applyClockOutAndStatus ⟨some "Approved", some 1000, none⟩ recBob).checkOutTime =
        (match (some 1000 : Option Nat) with
          | some co => some co
          | none => recBob.checkOutTime) ∧
      (applyClockOutAndStatus ⟨some "Approved", some 1000, none⟩ recBob).status =
        (match (none : Option String) with | some s => some s | none => recBob.status) :=
  C10_manager_own_record dbMain mgrBob 12 ⟨some "Approved", some 1000, none⟩ recBob
    (by rfl) (by rfl) (by rfl) (by rfl)

/-- C3: approving a pending leave request (caller an admin, or a manager who is
the requester's direct manager) computes days = (end_date - start_date) + 1 and
upserts the owner's balance row for the current year: an existing row (any
prior used ≥ 0) afterwards has used increased by days and remaining = total -
used exactly; if no row existed one is created with total = 17, used = days,
remaining = 17 - days. -/
theorem C3_approve_balance (db : Db) (user : Employee) (leaveId : Nat)
    (currentYear : Nat) (now : Nat) (lr : LeaveRequest)
    (hfind : db.leaves.find? (fun x => x.id == leaveId) = some lr)
    (hpend : lr.status = LeaveStatus.pending)
    (hauth : user.role = Role.admin ∨
      (user.role = Role.manager ∧
        ∃ emp, findEmployee db lr.employeeId = some emp ∧ emp.managerId = some user.id)) :
    ∃ db', approve_leave_post db user leaveId currentYear now = Except.ok db' ∧
      (∀ b, db.balances.find?
          (fun x => x.employeeId == lr.employeeId && x.year == currentYear) = some b →
        0 ≤ b.usedLeaves →
        db'.balances.find?
            (fun x => x.employeeId == lr.employeeId && x.year == currentYear) =
          some { b with
            usedLeaves := b.usedLeaves + (lr.endDate - lr.startDate + 1)
            remainingLeaves :=
              b.totalLeaves - (b.usedLeaves + (lr.endDate - lr.startDate + 1)) }) ∧
      (db.balances.find?
          (fun x => x.employeeId == lr.employeeId && x.year == currentYear) = none →
        db'.balances.find?
            (fun x => x.employeeId == lr.employeeId && x.year == currentYear) =
          some { employeeId := lr.employeeId
                 year := currentYear
                 totalLeaves := 17
                 usedLeaves := lr.endDate - lr.startDate + 1
                 remainingLeaves := 17 - (lr.endDate - lr.startDate + 1) }) := by
  have hrole2 : ¬(user.role ≠ Role.admin ∧ user.role ≠ Role.manager) := by
    rcases hauth with h | ⟨h, -⟩
    · exact fun hc => hc.1 h
    · exact fun hc => hc.2 h
  unfold approve_leave_post
  rw [if_neg hrole2]
  simp only [hfind]
  rw [if_neg (by simp [hpend] : ¬(lr.status ≠ LeaveStatus.pending))]
  have hmc : (if user.role = Role.manager then
      match findEmployee db lr.employeeId with
      | none => Except.error (404, "Employee not found")
      | some employee =>
        if employee.managerId ≠ some user.id then
          Except.error (403, "You can only approve leaves for your direct reports")
        else Except.ok ()
    else Except.ok ()) = (Except.ok () : Except Err Unit) := by
    rcases hauth with hadm | ⟨hmgr, emp, hemp, hman⟩
    · rw [if_neg (by simp [hadm])]
    · rw [if_pos hmgr]
      simp only [hemp]
      rw [if_neg (by simp [hman])]
  rw [hmc]
  cases hbal : db.balances.find?
      (fun x => x.employeeId == lr.employeeId && x.year == currentYear) with
  | none =>
    refine ⟨_, rfl, ?_, ?_⟩
    · intro b hb
      exact Option.noConfusion hb
    · intro _
      rw [List.find?_append, hbal]
      simp [List.find?]
  | some b0 =>
    have hp0 := List.find?_some hbal
    refine ⟨_, rfl, ?_, ?_⟩
    · intro b hb _
      injection hb with hb
      subst hb
      exact find?_updateFirst _ _ _ _ hbal hp0
    · intro h
      exact Option.noConfusion h

/-- C3 witness: Carol (admin) approves Alice's pending 3-day leave against an
existing balance row, and Eve (Dan's direct manager) approves Dan's pending
1-day leave with no balance row present. -/
theorem C3_witness :
    (∃ db', approve_leave_post dbMain admCarol 30 2026 77 = Except.ok db' ∧
      (∀ b, dbMain.balances.find?
          (fun x => x.employeeId == lvAlice.employeeId && x.year == 2026) = some b →
        0 ≤ b.usedLeaves →
        db'.balances.find?
            (fun x => x.employeeId == lvAlice.employeeId && x.year == 2026) =
          some { b with
            usedLeaves := b.usedLeaves + (lvAlice.endDate - lvAlice.startDate + 1)
            remainingLeaves :=
              b.totalLeaves - (b.usedLeaves + (lvAlice.endDate - lvAlice.startDate + 1)) }) ∧
      (dbMain.balances.find?
          (fun x => x.employeeId == lvAlice.employeeId && x.year == 2026) = none →
        db'.balances.find?
            (fun x => x.employeeId == lvAlice.employeeId && x.year == 2026) =
          some { employeeId := lvAlice.employeeId
                 year := 2026
                 totalLeaves := 17
                 usedLeaves := lvAlice.endDate - lvAlice.startDate + 1
                 remainingLeaves := 17 - (lvAlice.endDate - lvAlice.startDate + 1) })) ∧
    (∃ db', approve_leave_post dbMain mgrEve 31 2026 77 = Except.ok db' ∧
      (∀ b, dbMain.balances.find?
          (fun x => x.employeeId == lvDan.employeeId && x.year == 2026) = some b →
        0 ≤ b.usedLeaves →
        db'.balances.find?
            (fun x => x.employeeId == lvDan.employeeId && x.year == 2026) =
          some { b with
            usedLeaves := b.usedLeaves + (lvDan.endDate - lvDan.startDate + 1)
            remainingLeaves :=
              b.totalLeaves - (b.usedLeaves + (lvDan.endDate - lvDan.startDate + 1)) }) ∧
      (dbMain.balances.find?
          (fun x => x.employeeId == lvDan.employeeId && x.year == 2026) = none →
        db'.balances.find?
            (fun x => x.employeeId == lvDan.employeeId && x.year == 2026) =
          some { employeeId := lvDan.employeeId
                 year := 2026
                 totalLeaves := 17
                 usedLeaves := lvDan.endDate - lvDan.startDate + 1
                 remainingLeaves := 17 - (lvDan.endDate - lvDan.startDate + 1) })) :=
  ⟨C3_approve_balance dbMain admCarol 30 2026 77 lvAlice (by rfl) (by rfl)
      (Or.inl (by rfl)),
    C3_approve_balance dbMain mgrEve 31 2026 77 lvDan (by rfl) (by rfl)
      (Or.inr ⟨by rfl, empDan, by rfl, by rfl⟩)⟩

/-- C7: `reject` on a leave request uses the same authorization as `approve`
(admin unconditionally; a manager only when the requester is their direct
report), succeeds for every current status (no pending requirement), sets
status rejected with reviewed_by and reviewed_at, and never mutates any
LeaveBalance row (nor employees, attendance or entries).  The last conjunct is
the authorization parity: on a pending request, approve succeeds for exactly
the callers for which reject succeeds. -/
theorem C7_reject_frame (db : Db) (user : Employee) (leaveId : Nat) (now : Nat)
    (lr : LeaveRequest) (emp : Employee)
    (hfind : db.leaves.find? (fun x => x.id == leaveId) = some lr)
    (hemp : findEmployee db lr.employeeId = some emp) :
    ((∃ db', reject_leave_post db user leaveId now = Except.ok db') ↔
      (user.role = Role.admin ∨
        (user.role = Role.manager ∧ emp.managerId = some user.id))) ∧
    (∀ db', reject_leave_post db user leaveId now = Except.ok db' →
      db'.leaves.find? (fun x => x.id == leaveId) =
        some { lr with status := LeaveStatus.rejected
                       reviewedBy := some user.id
                       reviewedAt := some now } ∧
      db'.balances = db.balances ∧ db'.employees = db.employees ∧
      db'.attendance = db.attendance ∧ db'.entries = db.entries) ∧
    (∀ y n2, lr.status = LeaveStatus.pending →
      ((∃ db', approve_leave_post db user leaveId y n2 = Except.ok db') ↔
        (∃ db', reject_leave_post db user leaveId now = Except.ok db'))) := by
  have hpr : (fun x : LeaveRequest => x.id == leaveId) lr = true := by
    have h := List.find?_some hfind
    simpa using h
  cases hrole : user.role with
  | employee =>
    have hrj : reject_leave_post db user leaveId now =
        Except.error (403, "Only admin/manager can reject") := by
      unfold reject_leave_post
      rw [if_pos ⟨by simp [hrole], by simp [hrole]⟩]
    have hap : ∀ y n2, approve_leave_post db user leaveId y n2 =
        Except.error (403, "Only admin/manager can approve") := by
      intro y n2
      unfold approve_leave_post
      rw [if_pos ⟨by simp [hrole], by simp [hrole]⟩]
    refine ⟨?_, ?_, ?_⟩
    · constructor
      · rintro ⟨db', hdb⟩
        rw [hrj] at hdb
        exact Except.noConfusion hdb
      · rintro (h | ⟨h, -⟩) <;> exact Role.noConfusion h
    · intro db' hdb
      rw [hrj] at hdb
      exact Except.noConfusion hdb
    · intro y n2 _
      constructor
      · rintro ⟨db', hdb⟩
        rw [hap y n2] at hdb
        exact Except.noConfusion hdb
      · rintro ⟨db', hdb⟩
        rw [hrj] at hdb
        exact Except.noConfusion hdb
  | admin =>
    have hrj : reject_leave_post db user leaveId now =
        Except.ok { db with leaves := updateFirst (fun x => x.id == leaveId) (fun _ => { lr with status := LeaveStatus.rejected, reviewedBy := some user.id, reviewedAt := some now }) db.leaves } := by
      unfold reject_leave_post
      rw [if_neg (by simp [hrole] : ¬(user.role ≠ Role.admin ∧ user.role ≠ Role.manager))]
      simp only [hfind]
      rw [if_neg (by simp [hrole] : ¬(user.role = Role.manager))]
    have hapS : ∀ y n2, lr.status = LeaveStatus.pending →
        ∃ db', approve_leave_post db user leaveId y n2 = Except.ok db' := by
      intro y n2 hpend
      unfold approve_leave_post
      rw [if_neg (by simp [hrole] : ¬(user.role ≠ Role.admin ∧ user.role ≠ Role.manager))]
      simp only [hfind]
      rw [if_neg (by simp [hpend] : ¬(lr.status ≠ LeaveStatus.pending))]
      rw [if_neg (by simp [hrole] : ¬(user.role = Role.manager))]
      cases db.balances.find? (fun x => x.employeeId == lr.employeeId && x.year == y) with
      | none => exact ⟨_, rfl⟩
      | some b0 => exact ⟨_, rfl⟩
    refine ⟨?_, ?_, ?_⟩
    · exact ⟨fun _ => Or.inl rfl, fun _ => ⟨_, hrj⟩⟩
    · intro db' hdb
      rw [hrj] at hdb
      injection hdb with hdb
      subst hdb
      exact ⟨find?_updateFirst _ _ _ _ hfind hpr, rfl, rfl, rfl, rfl⟩
    · intro y n2 hpend
      exact ⟨fun _ => ⟨_, hrj⟩, fun _ => hapS y n2 hpend⟩
  | manager =>
    by_cases hm : emp.managerId = some user.id
    · have hrj : reject_leave_post db user leaveId now =
          Except.ok { db with leaves := updateFirst (fun x => x.id == leaveId) (fun _ => { lr with status := LeaveStatus.rejected, reviewedBy := some user.id, reviewedAt := some now }) db.leaves } := by
        unfold reject_leave_post
        rw [if_neg (by simp [hrole] : ¬(user.role ≠ Role.admin ∧ user.role ≠ Role.manager))]
        simp only [hfind]
        rw [if_pos hrole]
        simp only [hemp, Option.any_some]
        rw [if_neg (by simp [hm] : ¬((emp.managerId != some user.id) = true))]
      have hapS : ∀ y n2, lr.status = LeaveStatus.pending →
          ∃ db', approve_leave_post db user leaveId y n2 = Except.ok db' := by
        intro y n2 hpend
        unfold approve_leave_post
        rw [if_neg (by simp [hrole] : ¬(user.role ≠ Role.admin ∧ user.role ≠ Role.manager))]
        simp only [hfind]
        rw [if_neg (by simp [hpend] : ¬(lr.status ≠ LeaveStatus.pending))]
        rw [if_pos hrole]
        simp only [hemp]
        rw [if_neg (by simp [hm] : ¬(emp.managerId ≠ some user.id))]
        cases db.balances.find? (fun x => x.employeeId == lr.employeeId && x.year == y) with
        | none => exact ⟨_, rfl⟩
        | some b0 => exact ⟨_, rfl⟩
      refine ⟨?_, ?_, ?_⟩
      · exact ⟨fun _ => Or.inr ⟨rfl, hm⟩, fun _ => ⟨_, hrj⟩⟩
      · intro db' hdb
        rw [hrj] at hdb
        injection hdb with hdb
        subst hdb
        exact ⟨find?_updateFirst _ _ _ _ hfind hpr, rfl, rfl, rfl, rfl⟩
      · intro y n2 hpend
        exact ⟨fun _ => ⟨_, hrj⟩, fun _ => hapS y n2 hpend⟩
    · have hrj : reject_leave_post db user leaveId now =
          Except.error (403, "You can only reject leaves for your direct reports") := by
        unfold reject_leave_post
        rw [if_neg (by simp [hrole] : ¬(user.role ≠ Role.admin ∧ user.role ≠ Role.manager))]
        simp only [hfind]
        rw [if_pos hrole]
        simp only [hemp, Option.any_some]
        rw [if_pos (by simpa using hm : (emp.managerId != some user.id) = true)]
      have hap : ∀ y n2, lr.status = LeaveStatus.pending →
          approve_leave_post db user leaveId y n2 =
            Except.error (403, "You can only approve leaves for your direct reports") := by
        intro y n2 hpend
        unfold approve_leave_post
        rw [if_neg (by simp [hrole] : ¬(user.role ≠ Role.admin ∧ user.role ≠ Role.manager))]
        simp only [hfind]
        rw [if_neg (by simp [hpend] : ¬(lr.status ≠ LeaveStatus.pending))]
        rw [if_pos hrole]
        simp only [hemp]
        rw [if_pos hm]
      refine ⟨?_, ?_, ?_⟩
      · constructor
        · rintro ⟨db', hdb⟩
          rw [hrj] at hdb
          exact Except.noConfusion hdb
        · rintro (h | ⟨-, h⟩)
          · exact Role.noConfusion h
          · exact absurd h hm
      · intro db' hdb
        rw [hrj] at hdb
        exact Except.noConfusion hdb
      · intro y n2 hpend
        constructor
        · rintro ⟨db', hdb⟩
          rw [hap y n2 hpend] at hdb
          exact Except.noConfusion hdb
        · rintro ⟨db', hdb⟩
          rw [hrj] at hdb
          exact Except.noConfusion hdb

/-- C7 witness: Bob (Alice's direct manager) rejects Alice's request; balances
and all other tables are untouched, and on the pending request reject succeeds
for exactly the callers approve would accept. -/
theorem C7_witness :
    ((∃ db', reject_leave_post dbMain mgrBob 30 88 = Except.ok db') ↔
      (mgrBob.role = Role.admin ∨
        (mgrBob.role = Role.manager ∧ empAlice.managerId = some mgrBob.id))) ∧
    (∀ db', reject_leave_post dbMain mgrBob 30 88 = Except.ok db' →
      db'.leaves.find? (fun x => x.id == 30) =
        some { lvAlice with status := LeaveStatus.rejected
                            reviewedBy := some mgrBob.id
                            reviewedAt := some 88 } ∧
      db'.balances = dbMain.balances ∧ db'.employees = dbMain.employees ∧
      db'.attendance = dbMain.attendance ∧ db'.entries = dbMain.entries) ∧
    (∀ y n2, lvAlice.status = LeaveStatus.pending →
      ((∃ db', approve_leave_post dbMain mgrBob 30 y n2 = Except.ok db') ↔
        (∃ db', reject_leave_post dbMain mgrBob 30 88 = Except.ok db'))) :=
  C7_reject_frame dbMain mgrBob 30 88 lvAlice empAlice (by rfl) (by rfl)

/-- C6 counterexample: Bob is a manager who neither owns Dan's pending leave
request nor is an admin (he is not even Dan's manager), yet `delete_leave`
succeeds for him, contradicting the claim that deletion succeeds only for the
owner or an admin. -/
theorem C6_counterexample :
    delete_leave dbMain mgrBob 31 = Except.ok { dbMain with leaves := [lvAlice] } ∧
    mgrBob.id ≠ lvDan.employeeId ∧ mgrBob.role ≠ Role.admin ∧
    empDan.managerId ≠ some mgrBob.id :=
  ⟨by rfl, by decide, by decide, by decide⟩

/-- C6 amended: deleting a leave request succeeds iff the caller owns it or the
caller's role is not employee (the ownership guard in the source only fires for
employee-role callers, so any manager or admin passes it), and the request is
still pending; a non-owner employee-role caller fails Forbidden; an allowed
caller on a non-pending request fails with the pending-only Conflict (HTTP 400
in the source); failures return no new state, so the request remains stored;
on success the request is removed. -/
theorem C6_amended (db : Db) (user : Employee) (leaveId : Nat) (lr : LeaveRequest)
    (hfind : db.leaves.find? (fun x => x.id == leaveId) = some lr) :
    ((∃ db', delete_leave db user leaveId = Except.ok db') ↔
      ((lr.employeeId = user.id ∨ user.role ≠ Role.employee) ∧
        lr.status = LeaveStatus.pending)) ∧
    (lr.employeeId ≠ user.id → user.role = Role.employee →
      delete_leave db user leaveId =
        Except.error (403, "Cannot delete others leave requests")) ∧
    ((lr.employeeId = user.id ∨ user.role ≠ Role.employee) →
      lr.status ≠ LeaveStatus.pending →
      delete_leave db user leaveId =
        Except.error (400, "Can only delete pending leave requests")) ∧
    (∀ db', delete_leave db user leaveId = Except.ok db' →
      db'.leaves = removeFirst (fun x => x.id == leaveId) db.leaves) := by
  unfold delete_leave
  simp only [hfind]
  by_cases h1 : (lr.employeeId ≠ user.id ∧ user.role = Role.employee)
  · rw [if_pos h1]
    refine ⟨?_, ?_, ?_, ?_⟩
    · constructor
      · rintro ⟨db', hdb⟩
        exact Except.noConfusion hdb
      · rintro ⟨hor, -⟩
        rcases hor with h | h
        · exact absurd h h1.1
        · exact absurd h1.2 h
    · intro _ _
      rfl
    · intro hor _
      rcases hor with h | h
      · exact absurd h h1.1
      · exact absurd h1.2 h
    · intro db' hdb
      exact Except.noConfusion hdb
  · rw [if_neg h1]
    have hor : lr.employeeId = user.id ∨ user.role ≠ Role.employee := by
      rcases not_and_or.1 h1 with h | h
      · exact Or.inl (not_not.1 h)
      · exact Or.inr h
    by_cases h2 : lr.status ≠ LeaveStatus.pending
    · rw [if_pos h2]
      refine ⟨?_, ?_, ?_, ?_⟩
      · constructor
        · rintro ⟨db', hdb⟩
          exact Except.noConfusion hdb
        · rintro ⟨-, hp⟩
          exact absurd hp h2
      · intro hne hrole
        exact absurd ⟨hne, hrole⟩ h1
      · intro _ _
        rfl
      · intro db' hdb
        exact Except.noConfusion hdb
    · rw [if_neg h2]
      refine ⟨?_, ?_, ?_, ?_⟩
      · exact ⟨fun _ => ⟨hor, not_not.1 h2⟩, fun _ => ⟨_, rfl⟩⟩
      · intro hne hrole
        exact absurd ⟨hne, hrole⟩ h1
      · intro _ hnp
        exact absurd (not_not.1 h2) hnp
      · intro db' hdb
        injection hdb with hdb
        subst hdb
        rfl

/-- C6 witness: Alice deletes her own pending leave request successfully, and
the request is removed from the store. -/
theorem C6_witness :
    ((∃ db', delete_leave dbMain empAlice 30 = Except.ok db') ↔
      ((lvAlice.employeeId = empAlice.id ∨ empAlice.role ≠ Role.employee) ∧
        lvAlice.status = LeaveStatus.pending)) ∧
    (lvAlice.employeeId ≠ empAlice.id → empAlice.role = Role.employee →
      delete_leave dbMain empAlice 30 =
        Except.error (403, "Cannot delete others leave requests")) ∧
    ((lvAlice.employeeId = empAlice.id ∨ empAlice.role ≠ Role.employee) →
      lvAlice.status ≠ LeaveStatus.pending →
      delete_leave dbMain empAlice 30 =
        Except.error (400, "Can only delete pending leave requests")) ∧
    (∀ db', delete_leave dbMain empAlice 30 = Except.ok db' →
      db'.leaves = removeFirst (fun x => x.id == 30) dbMain.leaves) :=
  C6_amended dbMain empAlice 30 lvAlice (by rfl)

/-- C1 counterexample: Dan (employee 4) calls `mark_attendance` naming Alice's
employee id, and Alice's existing record for the day gets its check-out time
mutated although Dan is not the owner: the operation performs no ownership
check at all, so clock-in/clock-out is not owner-only as claimed. -/
theorem C1_counterexample :
    (mark_attendance dbMain empDan ⟨1, 540, some 1020, "Present"⟩ 100 99).attendance.map
        (fun x => (x.id, x.checkOutTime)) =
      [(10, some 1020), (11, none), (12, none)] ∧
    empDan.id ≠ 1 :=
  ⟨by rfl, by decide⟩

/-- C1 amended: `mark_attendance` applies the mutation for whatever employeeId
the payload names, without consulting the caller, and on an existing record it
never alters any record's approval_status; in `update_attendance`, the
clock-out path is owner-only for employee-role callers (an employee touching
another's record fails Forbidden) while a manager (or admin) caller may set
check_out_time on any record; and any `update_attendance` call whose payload
carries no approvalStatus leaves every record's approval_status unchanged. -/
theorem C1_amended :
    (∀ (db : Db) (u : Employee) (pl : MarkAttendanceRequest) (today : Int) (fid : Nat)
        (r : AttendanceRecord),
      db.attendance.find? (fun x => x.employeeId == pl.employeeId && x.date == today) =
        some r →
      (mark_attendance db u pl today fid).attendance.map (fun x => (x.id, x.approvalStatus)) =
        db.attendance.map (fun x => (x.id, x.approvalStatus))) ∧
    (∀ (db : Db) (u : Employee) (rid : Nat) (pl : UpdateAttendanceRequest)
        (r : AttendanceRecord),
      u.role = Role.employee →
      db.attendance.find? (fun x => x.id == rid) = some r →
      r.employeeId ≠ u.id →
      update_attendance db u rid pl =
        Except.error (403, "You can only update your own attendance")) ∧
    (∀ (db : Db) (u : Employee) (rid : Nat) (pl : UpdateAttendanceRequest) (db' : Db),
      pl.approvalStatus = none →
      update_attendance db u rid pl = Except.ok db' →
      db'.attendance.map (fun x => (x.id, x.approvalStatus)) =
        db.attendance.map (fun x => (x.id, x.approvalStatus))) ∧
    (∀ (db : Db) (u : Employee) (rid : Nat) (pl : UpdateAttendanceRequest)
        (r : AttendanceRecord) (co : Nat),
      u.role = Role.manager →
      db.attendance.find? (fun x => x.id == rid) = some r →
      r.employeeId ≠ u.id →
      pl.approvalStatus = none →
      pl.clockOut = some co →
      ∃ db' r', update_attendance db u rid pl = Except.ok db' ∧
        db'.attendance.find? (fun x => x.id == rid) = some r' ∧
        r'.checkOutTime = some co) := by
  refine ⟨?_, ?_, ?_, ?_⟩
  · intro db u pl today fid r hfind
    unfold mark_attendance
    simp only [hfind]
    exact map_updateFirst _ _ _ _ _ hfind (by cases pl.clockOut <;> rfl)
  · intro db u rid pl r hrole hfind hne
    unfold update_attendance
    simp only [hfind]
    unfold updateAttendanceRoleStep
    simp only [hrole]
    rw [if_pos hne]
  · intro db u rid pl db' hps hdb
    unfold update_attendance at hdb
    cases hfind : db.attendance.find? (fun x => x.id == rid) with
    | none =>
      simp only [hfind] at hdb
      exact Except.noConfusion hdb
    | some r =>
      simp only [hfind] at hdb
      have hstep : updateAttendanceRoleStep u (findEmployee db r.employeeId) pl r =
            Except.ok r ∨
          updateAttendanceRoleStep u (findEmployee db r.employeeId) pl r =
            Except.error (403, "You can only update your own attendance") := by
        cases hrole : u.role with
        | employee =>
          unfold updateAttendanceRoleStep
          simp only [hrole]
          by_cases hne : r.employeeId ≠ u.id
          · rw [if_pos hne]
            exact Or.inr rfl
          · rw [if_neg hne]
            rw [if_neg (by simp [hps] : ¬(pl.approvalStatus.isSome = true))]
            exact Or.inl rfl
        | manager =>
          unfold updateAttendanceRoleStep
          simp only [hrole]
          by_cases hown : (r.employeeId == u.id) = true
          · rw [if_pos hown]
            exact Or.inl rfl
          · rw [if_neg hown]
            rw [if_neg (by simp [hps] : ¬(pl.approvalStatus.isSome = true))]
            exact Or.inl rfl
        | admin =>
          unfold updateAttendanceRoleStep
          simp only [hrole]
          rw [if_neg (by simp [hps] : ¬(pl.approvalStatus.isSome = true))]
          exact Or.inl rfl
      rcases hstep with hstep | hstep
      · simp only [hstep] at hdb
        injection hdb with hdb
        subst hdb
        exact map_updateFirst _ _ _ _ _ hfind
          (by simp [applyClockOutAndStatus_id, applyClockOutAndStatus_approvalStatus])
      · simp only [hstep] at hdb
        exact Except.noConfusion hdb
  · intro db u rid pl r co hrole hfind hne hps hco
    have hpr : (fun x : AttendanceRecord => x.id == rid) r = true := by
      have h := List.find?_some hfind
      simpa using h
    unfold update_attendance
    simp only [hfind]
    unfold updateAttendanceRoleStep
    simp only [hrole]
    rw [if_neg (by simpa using hne : ¬((r.employeeId == u.id) = true))]
    rw [if_neg (by simp [hps] : ¬(pl.approvalStatus.isSome = true))]
    refine ⟨_, applyClockOutAndStatus pl r, rfl,
      find?_updateFirst _ _ _ _ hfind (by rw [applyClockOutAndStatus_id]; exact hpr), ?_⟩
    rw [applyClockOutAndStatus_checkOutTime]
    simp only [hco]

/-- C1 witness: Dan marking Alice's day mutates her record but no
approval_status; Dan is rejected when updating Alice's record directly; an
admin clock-out leaves every approval_status in place; Eve (a manager unrelated
to Alice) sets a check-out time on Alice's record through `update_attendance`. -/
theorem C1_witness :
    ((mark_attendance dbMain empDan ⟨1, 540, some 1020, "Present"⟩ 100 99).attendance.map
        (fun x => (x.id, x.approvalStatus)) =
      dbMain.attendance.map (fun x => (x.id, x.approvalStatus))) ∧
    (update_attendance dbMain empDan 10 ⟨none, some 900, none⟩ =
      Except.error (403, "You can only update your own attendance")) ∧
    (({ dbMain with
        attendance := [{ recAlice with checkOutTime := some 900 }, recDan, recBob] } : Db).attendance.map
          (fun x => (x.id, x.approvalStatus)) =
      dbMain.attendance.map (fun x => (x.id, x.approvalStatus))) ∧
    (∃ db' r', update_attendance dbMain mgrEve 10 ⟨none, some 900, none⟩ = Except.ok db' ∧
      db'.attendance.find? (fun x => x.id == 10) = some r' ∧
      r'.checkOutTime = some 900) :=
  ⟨C1_amended.1 dbMain empDan ⟨1, 540, some 1020, "Present"⟩ 100 99 recAlice (by rfl),
   C1_amended.2.1 dbMain empDan 10 ⟨none, some 900, none⟩ recAlice (by rfl) (by rfl)
     (by decide),
   C1_amended.2.2.1 dbMain admCarol 10 ⟨none, some 900, none⟩
     ({ dbMain with attendance := [{ recAlice with checkOutTime := some 900 }, recDan, recBob] } : Db)
     (by rfl) (by rfl),
   C1_amended.2.2.2 dbMain mgrEve 10 ⟨none, some 900, none⟩ recAlice 900 (by rfl) (by rfl)
     (by decide) (by rfl) (by rfl)⟩

/-- C2 counterexample: in `list_attendance`, manager Bob receives Dan's row
although Dan is neither Bob nor one of Bob's direct reports, so for that
listing a manager's result is not {self} ∪ {direct reports}. -/
theorem C2_counterexample :
    list_attendance dbMain mgrBob 0 100 none none none none "desc" =
      Except.ok (3, [recAlice, recDan, recBob]) ∧
    ¬ specVisible dbMain mgrBob recDan.employeeId :=
  ⟨by rfl, by decide⟩

/-- C2 amended: `get_all_attendance`, `get_all_leaves` and `get_leave_list`
scope exactly as the spec's three-tier rule says (employee: own rows; manager:
exactly self plus direct reports, one level; admin: all) — stated for
pagination wide enough to return the whole scoped set and stores with distinct
row ids; `list_attendance`, however, scopes only employee-role callers: a
manager caller (with no employee_id or date filter) receives every row of the
table. -/
theorem C2_amended :
    (∀ (db : Db) (u : Employee) (r : AttendanceRecord),
      r ∈ db.attendance →
      (∀ a ∈ db.attendance, ∀ b ∈ db.attendance, a.id = b.id → a = b) →
      (attendanceListItem db r ∈ get_all_attendance db u 0 db.attendance.length ↔
        specVisible db u r.employeeId)) ∧
    (∀ (db : Db) (u : Employee) (lr : LeaveRequest),
      lr ∈ db.leaves →
      (∀ a ∈ db.leaves, ∀ b ∈ db.leaves, a.id = b.id → a = b) →
      (leaveView db lr ∈ get_all_leaves db u ↔ specVisible db u lr.employeeId)) ∧
    (∀ (db : Db) (u : Employee) (lr : LeaveRequest),
      lr ∈ db.leaves →
      (∀ a ∈ db.leaves, ∀ b ∈ db.leaves, a.id = b.id → a = b) →
      (leaveView db lr ∈ get_leave_list db u ↔ specVisible db u lr.employeeId)) ∧
    (∀ (db : Db) (u : Employee),
      u.role = Role.manager →
      ∃ items, list_attendance db u 0 db.attendance.length none none none none "desc" =
          Except.ok (db.attendance.length, items) ∧
        ∀ r, (r ∈ items ↔ r ∈ db.attendance)) := by
  refine ⟨?_, ?_, ?_, ?_⟩
  · intro db u r hr hids
    rw [get_all_attendance_full]
    have hinj : ∀ b ∈ attendanceScope db u,
        attendanceListItem db b = attendanceListItem db r → b = r := by
      intro b hb heq
      have hbmem := ((mem_attendanceScope db u b).1 hb).1
      have hid : b.id = r.id := congrArg AttendanceListItem.id heq
      exact hids b hbmem r hr hid
    exact (mem_map_sortBy dateDesc (attendanceListItem db) (attendanceScope db u) r
      hinj).trans ((mem_attendanceScope db u r).trans (and_iff_right hr))
  · intro db u lr hlr hids
    unfold get_all_leaves
    have hinj : ∀ b ∈ leaveScope db u, leaveView db b = leaveView db lr → b = lr := by
      intro b hb heq
      have hbmem := ((mem_leaveScope db u b).1 hb).1
      have hid : b.id = lr.id := congrArg LeaveView.id heq
      exact hids b hbmem lr hlr hid
    exact (mem_map_sortBy appliedDesc (leaveView db) (leaveScope db u) lr
      hinj).trans ((mem_leaveScope db u lr).trans (and_iff_right hlr))
  · intro db u lr hlr hids
    unfold get_leave_list
    have hinj : ∀ b ∈ leaveScope db u, leaveView db b = leaveView db lr → b = lr := by
      intro b hb heq
      have hbmem := ((mem_leaveScope db u b).1 hb).1
      have hid : b.id = lr.id := congrArg LeaveView.id heq
      exact hids b hbmem lr hlr hid
    exact (mem_map_sortBy idDesc (leaveView db) (leaveScope db u) lr
      hinj).trans ((mem_leaveScope db u lr).trans (and_iff_right hlr))
  · intro db u hrole
    have heq : list_attendance db u 0 db.attendance.length none none none none "desc" =
        Except.ok (db.attendance.length, sortBy dateDesc db.attendance) := by
      unfold list_attendance
      rw [if_neg (by simp)]
      rw [if_neg (by simp [hrole] : ¬(u.role = Role.employee))]
      show (Except.ok (db.attendance.length,
          ((sortBy dateDesc db.attendance).drop 0).take db.attendance.length) :
        Except Err (Nat × List AttendanceRecord)) = _
      rw [List.drop_zero, List.take_of_length_le (le_of_eq (length_sortBy _ _))]
    exact ⟨sortBy dateDesc db.attendance, heq, fun r => mem_sortBy _ _ _⟩

/-- C2 witness: with the example store, Bob's `get_all_attendance` contains
Alice's row (his direct report), the leave listings behave likewise for Alice's
request, and his `list_attendance` returns every attendance row. -/
theorem C2_witness :
    (attendanceListItem dbMain recAlice ∈
        get_all_attendance dbMain mgrBob 0 dbMain.attendance.length ↔
      specVisible dbMain mgrBob recAlice.employeeId) ∧
    (leaveView dbMain lvAlice ∈ get_all_leaves dbMain mgrBob ↔
      specVisible dbMain mgrBob lvAlice.employeeId) ∧
    (leaveView dbMain lvAlice ∈ get_leave_list dbMain mgrBob ↔
      specVisible dbMain mgrBob lvAlice.employeeId) ∧
    (∃ items, list_attendance dbMain mgrBob 0 dbMain.attendance.length
          none none none none "desc" =
        Except.ok (dbMain.attendance.length, items) ∧
      ∀ r, (r ∈ items ↔ r ∈ dbMain.attendance)) :=
  ⟨C2_amended.1 dbMain mgrBob recAlice (by decide) (by decide),
   C2_amended.2.1 dbMain mgrBob lvAlice (by decide) (by decide),
   C2_amended.2.2.1 dbMain mgrBob lvAlice (by decide) (by decide),
   C2_amended.2.2.2 dbMain mgrBob (by rfl)⟩

end AMS
